import Mathlib

set_option maxRecDepth 2000

/-!
Shallow embedding of the data manager of myDB (src/dataManager/page.go):
pages are byte lists, the free-space index (PageCtl) is a list of buckets
plus a tiny container, and the record-level operations of DmImpl are
state-passing functions.  Machine integers are modelled as Nat (their
unsigned bit patterns) with explicit wrapping where overflow matters.
Go runtime panics that the claims are about (array index out of range,
nil interface dereference) are modelled as dedicated result constructors.
Containers from the myDB/dataStructure package and the DataItem /
PageCache implementations are not part of the given source; definitions
for them are modelled from the specification and say so in their
doc comments.
-/

/-- Byte read, Go slice indexing data[i]; use sites keep i in range. -/
def byteAt (l : List Nat) (i : Nat) : Nat := l.getD i 0

/-- Go copy(data[off:off+len(src)], src): overwrite the bytes starting at
off.  Use sites guarantee off + src.length ≤ l.length (the source checks
the bound before every copy). -/
def writeBytes (l : List Nat) (off : Nat) (src : List Nat) : List Nat :=
  l.take off ++ src ++ l.drop (off + src.length)

/-- Go slice expression data[off:off+len], read off as a fresh list. -/
def readBytes (l : List Nat) (off len : Nat) : List Nat :=
  (List.range len).map fun i => byteAt l (off + i)

/-- Little-endian 32-bit read at an offset: binary.LittleEndian.Uint32. -/
def leRead32At (l : List Nat) (off : Nat) : Nat :=
  byteAt l off + 256 * byteAt l (off + 1) + 65536 * byteAt l (off + 2) +
    16777216 * byteAt l (off + 3)

/-- Little-endian byte encoding of an int32 value as written by
binary.Write; the Go int32 cast makes it depend only on n mod 2^32. -/
def le32Bytes (n : Nat) : List Nat :=
  [n % 256, n / 256 % 256, n / 65536 % 256, n / 16777216 % 256]

/-- Big-endian 64-bit read at an offset: binary.BigEndian.Uint64. -/
def beRead64At (l : List Nat) (off : Nat) : Nat :=
  72057594037927936 * byteAt l off +
    281474976710656 * byteAt l (off + 1) +
    1099511627776 * byteAt l (off + 2) +
    4294967296 * byteAt l (off + 3) +
    16777216 * byteAt l (off + 4) +
    65536 * byteAt l (off + 5) +
    256 * byteAt l (off + 6) +
    byteAt l (off + 7)

/-- Big-endian byte encoding of a 64-bit length. -/
def be64Bytes (n : Nat) : List Nat :=
  [n / 72057594037927936 % 256, n / 281474976710656 % 256,
    n / 1099511627776 % 256, n / 4294967296 % 256,
    n / 16777216 % 256, n / 65536 % 256, n / 256 % 256, n % 256]

/-- PageSize, fixed page size in bytes (page.go). -/
def PageSize : Nat := 8192

/-- MaxFreeSize = PageSize - SzPgUsed - SzPageType (page.go). -/
def MaxFreeSize : Nat := 8184

/-- DbMetaPage page type constant: 1<<0 ||| 1<<15 (page.go). -/
def DbMetaPage : Nat := 32769

/-- DataPage page type constant: 1<<1 (page.go). -/
def DataPage : Nat := 2

/-- In-memory page: its byte buffer and dirty flag (PageImpl of page.go,
without the lock and the cache back pointer, which carry no data). -/
structure PageData where
  data : List Nat
  dirty : Bool
  deriving DecidableEq, Repr

namespace PageImpl

/-- GetUsed: little-endian uint32 from bytes [0..4). -/
def GetUsed (p : PageData) : Nat := leRead32At p.data 0

/-- GetFree: PageSize - used, an int64 in the source (may be negative for
a corrupt header, hence Int). -/
def GetFree (p : PageData) : Int := 8192 - (GetUsed p : Int)

/-- GetPageType: little-endian uint32 from bytes [4..8) (the Go PageType
is this pattern reinterpreted as int32; every test the source performs on
it is bit-pattern based, so the Nat pattern is kept). -/
def GetPageType (p : PageData) : Nat := leRead32At p.data 4

/-- IsMetaPage: pageType & (1<<0) == 1. -/
def IsMetaPage (p : PageData) : Bool := decide (GetPageType p &&& 1 = 1)

/-- IsDataPage: pageType & (1<<1) == 1, exactly as written in the source. -/
def IsDataPage (p : PageData) : Bool := decide (GetPageType p &&& 2 = 1)

/-- Result of Append: ok with the new page state, or the PageOverflow
error (on which the source returns before mutating anything, so the
caller keeps the old state). -/
inductive AppendResult where
  | ok : PageData → AppendResult
  | overflow : AppendResult
  deriving DecidableEq, Repr

/-- Append: checks used + len(toAdd) > PageSize, else copies toAdd at
offset used, stores used + len(toAdd) back through the int32 cast, and
marks the page dirty. -/
def Append (p : PageData) (toAdd : List Nat) : AppendResult :=
  let used := GetUsed p
  if 8192 < used + toAdd.length then .overflow
  else
    let d1 := writeBytes p.data used toAdd
    .ok { data := writeBytes d1 0 (le32Bytes (used + toAdd.length)), dirty := true }

/-- CheckInitVersion: reflect.DeepEqual of data[100:108] and data[108:116].
The source first panics unless GetPageType is DbMetaPage; that guard is a
hypothesis of the theorems that use this. -/
def CheckInitVersion (p : PageData) : Bool :=
  readBytes p.data 100 8 == readBytes p.data 108 8

/-- InitVersion: rand.Read fills data[100:108]; the 8 random bytes are the
rnd argument.  The DbMetaPage panic guard is a theorem hypothesis. -/
def InitVersion (p : PageData) (rnd : List Nat) : PageData :=
  { p with data := writeBytes p.data 100 rnd }

/-- UpdateVersion: copy(data[108:116], data[100:108]).  The DbMetaPage
panic guard is a theorem hypothesis. -/
def UpdateVersion (p : PageData) : PageData :=
  { p with data := writeBytes p.data 108 (readBytes p.data 100 8) }

end PageImpl

/-- PageInfo: a free-space index entry, page id and its recorded available
bytes (both int64 in the source). -/
structure PageInfo where
  PageId : Int
  Available : Int
  deriving DecidableEq, Repr

/-- State of PageCtlImpl: the 64-element bucket array free (a list here;
out-of-range accesses are what claim C3 is about, so they stay visible
through List.getElem?) and the tiny container.  The dirties list, the
lock and the cache pointer carry no data relevant to any claim. -/
structure PageCtlState where
  free : List (List PageInfo)
  tiny : List PageInfo
  deriving DecidableEq, Repr

/-- Modelled from the spec: LinkedList.FindGtAndRemove and (through the
select step for the tiny container) SkipList.BinarySearch from the
myDB/dataStructure package are not under src/.  Per spec section 4.3 both
select paths find an entry whose available is at least need, remove it
from the container and return it; first match wins in the scanned
order. -/
def findGeRemove (need : Int) : List PageInfo → Option (PageInfo × List PageInfo)
  | [] => none
  | x :: xs =>
    if need ≤ x.Available then some (x, xs)
    else
      match findGeRemove need xs with
      | some (e, rest) => some (e, x :: rest)
      | none => none

/-- Modelled from the spec: SkipList.Add from myDB/dataStructure is not
under src/; the tiny container is an ordered structure keyed by the
Available field, so Add inserts keeping the list sorted by Available. -/
def tinyAdd (e : PageInfo) : List PageInfo → List PageInfo
  | [] => [e]
  | x :: xs => if e.Available ≤ x.Available then e :: x :: xs else x :: tinyAdd e xs

namespace PageCtlImpl

/-- THRESHOLD bucket width (page.go). -/
def THRESHOLD : Int := 128

/-- TinyTHRESHOLD = THRESHOLD / 4 (page.go). -/
def TinyTHRESHOLD : Int := 32

/-- INTERVALS = PageSize / THRESHOLD, the bucket array length (page.go). -/
def INTERVALS : Nat := 64

/-- OMITTED: pages with less free space than this are dropped (page.go). -/
def OMITTED : Int := 8

/-- Result of Select.  found carries the removed entry and the new index
state; nothing is the nil return; badNeed models the panic on
need ≤ 0 or need > PageSize; outOfRange j models the Go runtime panic
when the scan indexes free[j] with j outside the bucket array. -/
inductive SelectResult where
  | found : PageInfo → PageCtlState → SelectResult
  | nothing : SelectResult
  | badNeed : SelectResult
  | outOfRange : Nat → SelectResult
  deriving DecidableEq, Repr

/-- Loop of Select: for ; intervalNum <= INTERVALS; intervalNum += 1 over
free[intervalNum].FindGtAndRemove.  steps counts the remaining loop tests
(65 - j at entry, so the loop condition j ≤ 64 and the fuel run out at
the same point and steps = 0 is exactly the normal loop exit). -/
def scanFrom (s : PageCtlState) (need : Int) : Nat → Nat → SelectResult
  | _, 0 => .nothing
  | j, steps + 1 =>
    match s.free[j]? with
    | none => .outOfRange j
    | some b =>
      match findGeRemove need b with
      | some (e, b') => .found e { s with free := s.free.set j b' }
      | none => scanFrom s need (j + 1) steps

/-- selectTinyFast: for need < TinyTHRESHOLD, search (and per the spec
remove) an entry of the tiny container with Available ≥ need. -/
def selectTinyFast (s : PageCtlState) (need : Int) : Option (PageInfo × List PageInfo) :=
  if need < TinyTHRESHOLD then findGeRemove need s.tiny else none

/-- Bucket scan start of Select: intervalNum is need / THRESHOLD (0 after
a tiny-container miss) and is incremented by one unless it already equals
INTERVALS. -/
def startIdx (need : Int) : Nat :=
  if (if need < TinyTHRESHOLD then 0 else need.toNat / 128) ≠ 64 then
    (if need < TinyTHRESHOLD then 0 else need.toNat / 128) + 1
  else
    (if need < TinyTHRESHOLD then 0 else need.toNat / 128)

/-- Select: panic checks on need, the tiny fast path, then the bucket scan
from startIdx while intervalNum ≤ INTERVALS. -/
def Select (s : PageCtlState) (need : Int) : SelectResult :=
  if need ≤ 0 then .badNeed
  else if 8192 < need then .badNeed
  else
    match if need < TinyTHRESHOLD then findGeRemove need s.tiny else none with
    | some (e, tiny') => .found e { s with tiny := tiny' }
    | none => scanFrom s need (startIdx need) (65 - startIdx need)

/-- AddPageInfo: drop when available < OMITTED, tiny container when
available < TinyTHRESHOLD, else append to bucket available / THRESHOLD.
For every well-formed page available ≤ MaxFreeSize, so the bucket index
is at most 63 and the List.set is in range. -/
def AddPageInfo (s : PageCtlState) (pageId available : Int) : PageCtlState :=
  if available < OMITTED then s
  else if available < TinyTHRESHOLD then { s with tiny := tinyAdd ⟨pageId, available⟩ s.tiny }
  else
    { s with free := (s.free.set (available.toNat / 128)
        ((s.free.getD (available.toNat / 128) []) ++ [⟨pageId, available⟩])) }

/-- Init: walk page numbers 1 … n, skip PageNumberDbMeta = 1, and for
every page whose IsDataPage is true call AddPageInfo with its id and free
count.  The pages list holds page number i + 1 at position i, matching
the page cache. -/
def Init (s : PageCtlState) (pages : List PageData) : PageCtlState :=
  pages.enum.foldl
    (fun acc ip =>
      if ip.1 + 1 = 1 then acc
      else if PageImpl.IsDataPage ip.2 then
        AddPageInfo acc (Int.ofNat (ip.1 + 1)) (PageImpl.GetFree ip.2)
      else acc)
    s

end PageCtlImpl

/-- Empty free-space index with its 64 buckets, the state NewPageCtl
builds. -/
def ctl64 : PageCtlState := ⟨List.replicate 64 [], []⟩

/-- getUid: (pageId << 32) | offset on int64.  Values are the 64-bit
patterns as Nat; the shift wraps modulo 2^64 like the Go int64 shift. -/
def getUid (pageId offset : Nat) : Nat :=
  (pageId * 4294967296) % 18446744073709551616 ||| offset

/-- Arithmetic right shift by 32 of a 64-bit pattern: the Go int64
operator uid >> 32 sign-extends, which on patterns adds the high filler
when the sign bit is set. -/
def sarShift32 (u : Nat) : Nat :=
  u / 4294967296 + if 9223372036854775808 ≤ u then 4294967295 * 4294967296 else 0

/-- uidTrans: offset = uid & (2^32 - 1); uid >>= 32 (arithmetic);
pageId = uid & (2^32 - 1).  Returns (pageId, offset). -/
def uidTrans (uid : Nat) : Nat × Nat :=
  (sarShift32 uid &&& 4294967295, uid &&& 4294967295)

/-- Modelled from the spec: WrapDataItemRaw from the missing dataItem.go
prepends the validity byte 01 and the big-endian uint64 payload length to
the payload, a 9-byte frame header. -/
def WrapDataItemRaw (data : List Nat) : List Nat :=
  1 :: (be64Bytes data.length ++ data)

/-- Whole-store state of DmImpl: the page list (position i holds page
number i + 1; page 1 is the database meta page) and the free-space index.
The redo log and transaction manager are external collaborators whose
calls have no effect on this state. -/
structure DmState where
  pages : List PageData
  ctl : PageCtlState
  deriving DecidableEq, Repr

namespace DmImpl

/-- PageCache.GetPage, resolving a page number to the cached page. -/
def getPage (s : DmState) (pageId : Nat) : Option PageData :=
  s.pages[pageId - 1]?

/-- Replace page pageId by f applied to it (an in-place page mutation). -/
def setPage (s : DmState) (pageId : Nat) (f : PageData → PageData) : DmState :=
  match s.pages[pageId - 1]? with
  | some p => { s with pages := s.pages.set (pageId - 1) (f p) }
  | none => s

/-- getDataItem: read the big-endian size from raw[offset+1..offset+9]
and slice the frame raw[offset .. offset+9+size]. -/
def getDataItemRaw (p : PageData) (offset : Nat) : List Nat :=
  readBytes p.data offset (9 + beRead64At p.data (offset + 1))

/-- Read: split the uid, fetch the page, build the item and keep it only
when its validity byte is 1 (IsValid is modelled from the spec: byte 0 of
the frame, 1 = live).  Returns the raw frame of a live item. -/
def Read (s : DmState) (uid : Nat) : Option (List Nat) :=
  match getPage s (uidTrans uid).1 with
  | none => none
  | some p =>
    let raw := getDataItemRaw p (uidTrans uid).2
    if byteAt raw 0 = 1 then some raw else none

/-- Result of Delete: ok with the new state, or the nil interface
dereference panic the source hits by calling di.Release() when Read
returned nil. -/
inductive DeleteResult where
  | ok : DmState → DeleteResult
  | nilDeref : DeleteResult
  deriving DecidableEq, Repr

/-- Delete: read the item; if present, log the invalidated copy (redo log
is external) and clear the in-page validity byte (DataItem.SetInvalid is
modelled from the spec: it clears the validity byte).  The source then
calls di.Release() unconditionally, a nil dereference when the item was
nil.  The xid argument only feeds the log. -/
def Delete (s : DmState) (uid : Nat) : DeleteResult :=
  match Read s uid with
  | some _ => .ok (setPage s (uidTrans uid).1
      (fun p => { p with data := writeBytes p.data (uidTrans uid).2 [0] }))
  | none => .nilDeref

/-- Fresh data page as produced by PageCache.NewPage (modelled from the
spec: a zeroed page with used = 8 and the requested page type). -/
def newDataPage : PageData :=
  ⟨[8, 0, 0, 0, 2, 0, 0, 0] ++ List.replicate 8184 0, false⟩

/-- Result of Insert.  tooLarge is the data-length-overflow panic;
selectOutOfRange and selectBadNeed propagate the Select panics;
pageMissing models a GetPage failure; appendOverflow the panic on a
failed Append. -/
inductive InsertResult where
  | ok : Nat → DmState → InsertResult
  | tooLarge : InsertResult
  | selectOutOfRange : Nat → InsertResult
  | selectBadNeed : InsertResult
  | pageMissing : InsertResult
  | appendOverflow : InsertResult
  deriving DecidableEq, Repr

/-- Tail of Insert after the page id is fixed: GetPage, offset = used,
log (external), Append, AddPageInfo with the new free count, return
uid = (pageId << 32) | offset. -/
def insertInto (s : DmState) (pageId : Nat) (raw : List Nat) : InsertResult :=
  match getPage s pageId with
  | none => .pageMissing
  | some pg =>
    let offset := PageImpl.GetUsed pg
    match PageImpl.Append pg raw with
    | .overflow => .appendOverflow
    | .ok pg' =>
      let s1 := setPage s pageId (fun _ => pg')
      let s2 := { s1 with ctl := PageCtlImpl.AddPageInfo s1.ctl (Int.ofNat pageId) (PageImpl.GetFree pg') }
      .ok (getUid pageId offset) s2

/-- Insert: wrap the payload, panic when the frame exceeds MaxFreeSize,
ask Select for a page, allocate a fresh data page when Select returns
nil, then append.  The xid argument only feeds the log. -/
def Insert (s : DmState) (data : List Nat) : InsertResult :=
  if 8184 < (WrapDataItemRaw data).length then .tooLarge
  else
    match PageCtlImpl.Select s.ctl (Int.ofNat (WrapDataItemRaw data).length) with
    | .badNeed => .selectBadNeed
    | .outOfRange j => .selectOutOfRange j
    | .found pi ctl' => insertInto { s with ctl := ctl' } pi.PageId.toNat (WrapDataItemRaw data)
    | .nothing =>
      insertInto { s with pages := s.pages ++ [newDataPage] } (s.pages.length + 1)
        (WrapDataItemRaw data)

/-- Result of Update.  invalidItem is the panic on updating a dead or
missing record; the remaining failures propagate from Delete and
Insert. -/
inductive UpdateResult where
  | ok : Nat → DmState → UpdateResult
  | invalidItem : UpdateResult
  | nilDeref : UpdateResult
  | tooLarge : UpdateResult
  | selectOutOfRange : Nat → UpdateResult
  | selectBadNeed : UpdateResult
  | pageMissing : UpdateResult
  | appendOverflow : UpdateResult
  deriving DecidableEq, Repr

/-- Update: read the old frame (panic when nil), wrap the new payload;
when len(newRaw) ≤ len(oldRaw) log (external) and update in place
(DataItem.Update is modelled from the spec: it writes the new frame over
the bytes of the item), returning the same uid; otherwise Delete then Insert,
returning the new uid.  The xid argument only feeds the log. -/
def Update (s : DmState) (uid : Nat) (data : List Nat) : UpdateResult :=
  match Read s uid with
  | none => .invalidItem
  | some oldRaw =>
    let newRaw := WrapDataItemRaw data
    if newRaw.length ≤ oldRaw.length then
      .ok uid (setPage s (uidTrans uid).1
        (fun p => { p with data := writeBytes p.data (uidTrans uid).2 newRaw }))
    else
      match Delete s uid with
      | .nilDeref => .nilDeref
      | .ok s1 =>
        match Insert s1 data with
        | .ok u s2 => .ok u s2
        | .tooLarge => .tooLarge
        | .selectOutOfRange j => .selectOutOfRange j
        | .selectBadNeed => .selectBadNeed
        | .pageMissing => .pageMissing
        | .appendOverflow => .appendOverflow

end DmImpl

/-- Meta page placeholder for concrete stores (page 1; its contents are
irrelevant to the record operations under test). -/
def metaStub : PageData := ⟨[0, 0, 0, 0, 1, 128, 0, 0] ++ List.replicate 8184 0, false⟩

/-- Concrete data page number 2 holding one live one-byte record at
offset 8: used = 18, page type DataPage, frame 01, size 1 big-endian,
payload 65. -/
def livePage2 : PageData :=
  ⟨[18, 0, 0, 0, 2, 0, 0, 0] ++
    ([1, 0, 0, 0, 0, 0, 0, 0, 1, 65] ++ List.replicate 8174 0), false⟩

/-- Store with one live record on page 2 and an empty free-space index. -/
def liveStore : DmState := ⟨[metaStub, livePage2], ctl64⟩

theorem length_writeBytes {l src : List Nat} {off : Nat} (h : off + src.length ≤ l.length) :
    (writeBytes l off src).length = l.length := by
  unfold writeBytes
  simp only [List.length_append, List.length_take, List.length_drop]
  omega

theorem byteAt_writeBytes {l src : List Nat} {off : Nat} (h : off + src.length ≤ l.length)
    (i : Nat) :
    byteAt (writeBytes l off src) i =
      if off ≤ i ∧ i < off + src.length then byteAt src (i - off) else byteAt l i := by
  have hofflen : (l.take off).length = off := by
    simp only [List.length_take]
    omega
  unfold byteAt writeBytes
  rw [List.append_assoc]
  simp only [List.getD_eq_getElem?_getD]
  rcases Nat.lt_or_ge i off with hlt | hge
  · rw [List.getElem?_append_left (by omega), List.getElem?_take_of_lt hlt]
    have : ¬(off ≤ i ∧ i < off + src.length) := by omega
    rw [if_neg this]
  · rw [List.getElem?_append_right (by omega), hofflen]
    rcases Nat.lt_or_ge (i - off) src.length with hsl | hsg
    · rw [List.getElem?_append_left hsl, if_pos ⟨hge, by omega⟩]
    · rw [List.getElem?_append_right hsg, List.getElem?_drop]
      have heq : off + src.length + (i - off - src.length) = i := by omega
      rw [heq, if_neg (by omega)]

theorem byteAt_writeBytes_lo {l src : List Nat} {off : Nat} (h : off + src.length ≤ l.length)
    {i : Nat} (hi : i < off) : byteAt (writeBytes l off src) i = byteAt l i := by
  rw [byteAt_writeBytes h, if_neg (by omega)]

theorem byteAt_writeBytes_hi {l src : List Nat} {off : Nat} (h : off + src.length ≤ l.length)
    {i : Nat} (hi : off + src.length ≤ i) : byteAt (writeBytes l off src) i = byteAt l i := by
  rw [byteAt_writeBytes h, if_neg (by omega)]

theorem byteAt_writeBytes_in {l src : List Nat} {off : Nat} (h : off + src.length ≤ l.length)
    {i : Nat} (h1 : off ≤ i) (h2 : i < off + src.length) :
    byteAt (writeBytes l off src) i = byteAt src (i - off) := by
  rw [byteAt_writeBytes h, if_pos ⟨h1, h2⟩]

theorem rangeMap_byteAt (l : List Nat) :
    (List.range l.length).map (fun i => byteAt l i) = l := by
  induction l with
  | nil => simp
  | cons a t ih =>
    simp only [List.length_cons, List.range_succ_eq_map, List.map_cons, List.map_map]
    have h0 : byteAt (a :: t) 0 = a := rfl
    have hs : ((fun i => byteAt (a :: t) i) ∘ Nat.succ) = fun i => byteAt t i := by
      funext i
      simp [byteAt, Function.comp]
    rw [h0, hs, ih]

theorem length_readBytes (l : List Nat) (off len : Nat) :
    (readBytes l off len).length = len := by
  simp [readBytes]

theorem readBytes_congr {l l' : List Nat} {off off' len : Nat}
    (h : ∀ i, i < len → byteAt l (off + i) = byteAt l' (off' + i)) :
    readBytes l off len = readBytes l' off' len := by
  unfold readBytes
  exact List.map_congr_left fun i hi => h i (List.mem_range.mp hi)

theorem readBytes_writeBytes_self {l src : List Nat} {off : Nat}
    (h : off + src.length ≤ l.length) :
    readBytes (writeBytes l off src) off src.length = src := by
  have step : readBytes (writeBytes l off src) off src.length = readBytes src 0 src.length := by
    apply readBytes_congr
    intro i hi
    rw [byteAt_writeBytes_in h (by omega) (by omega)]
    have : off + i - off = 0 + i := by omega
    rw [this]
  rw [step]
  unfold readBytes
  have : ∀ i ∈ List.range src.length, byteAt src (0 + i) = byteAt src i := by
    intro i _
    rw [Nat.zero_add]
  rw [List.map_congr_left this]
  exact rangeMap_byteAt src

theorem readBytes_writeBytes_disjoint {l src : List Nat} {off off2 len : Nat}
    (h : off + src.length ≤ l.length)
    (hd : off2 + len ≤ off ∨ off + src.length ≤ off2) :
    readBytes (writeBytes l off src) off2 len = readBytes l off2 len := by
  apply readBytes_congr
  intro i hi
  rw [byteAt_writeBytes h, if_neg (by omega)]

theorem leRead32At_writeBytes_le32 {l : List Nat} (n : Nat) (h : 4 ≤ l.length) :
    leRead32At (writeBytes l 0 (le32Bytes n)) 0 = n % 4294967296 := by
  have hb : (le32Bytes n).length = 4 := rfl
  have h4 : (0 : Nat) + (le32Bytes n).length ≤ l.length := by omega
  unfold leRead32At
  rw [byteAt_writeBytes_in h4 (by omega) (by simp [hb]),
    byteAt_writeBytes_in h4 (by omega) (by simp [hb]),
    byteAt_writeBytes_in h4 (by omega) (by simp [hb]),
    byteAt_writeBytes_in h4 (by omega) (by simp [hb])]
  show n % 256 + 256 * (n / 256 % 256) + 65536 * (n / 65536 % 256) +
      16777216 * (n / 16777216 % 256) = n % 4294967296
  omega

theorem leRead32At_writeBytes_hi {l src : List Nat} {off base : Nat}
    (h : off + src.length ≤ l.length) (hbase : base + 4 ≤ off) :
    leRead32At (writeBytes l off src) base = leRead32At l base := by
  unfold leRead32At
  rw [byteAt_writeBytes_lo h (by omega), byteAt_writeBytes_lo h (by omega),
    byteAt_writeBytes_lo h (by omega), byteAt_writeBytes_lo h (by omega)]

theorem and_two_ne_one (t : Nat) : t &&& 2 ≠ 1 := by
  intro h
  have h0 := congrArg (fun x => Nat.testBit x 0) h
  simp only [Nat.testBit_and] at h0
  have e2 : Nat.testBit 2 0 = false := by decide
  have e1 : Nat.testBit 1 0 = true := by decide
  rw [e2, e1, Bool.and_false] at h0
  exact Bool.false_ne_true h0

/-- Claim C1: IsDataPage as written in the source tests pageType & (1<<1) == 1, and a
conjunction with 2 is 0 or 2, never 1, so IsDataPage is false for every
page, data pages with bit 1 set included, and the free-space init
therefore never calls AddPageInfo: Init returns its input state for every
store.  The last conjunct exhibits the divergence concretely: a fresh
page of type DataPage (bit 1 set, so the claim wants it registered) is
not recognised. -/
theorem c1_isDataPage_never_true :
    (∀ p : PageData, PageImpl.IsDataPage p = false) ∧
    (∀ (s : PageCtlState) (pages : List PageData), PageCtlImpl.Init s pages = s) ∧
    (PageImpl.GetPageType DmImpl.newDataPage = DataPage ∧
      PageImpl.IsDataPage DmImpl.newDataPage = false ∧
      PageCtlImpl.Init ctl64 [metaStub, DmImpl.newDataPage] = ctl64) := by
  have hfalse : ∀ p : PageData, PageImpl.IsDataPage p = false := by
    intro p
    unfold PageImpl.IsDataPage
    exact decide_eq_false (and_two_ne_one _)
  have hinit : ∀ (s : PageCtlState) (pages : List PageData), PageCtlImpl.Init s pages = s := by
    intro s pages
    unfold PageCtlImpl.Init
    apply List.foldl_fixed'
    intro ip
    rw [hfalse ip.2]
    by_cases h1 : ip.1 + 1 = 1 <;> simp [h1]
  exact ⟨hfalse, hinit, by decide, hfalse _, hinit _ _⟩

/-- Claim C4: Append fails with PageOverflow exactly when
used + len(toAdd) > PageSize (returning before any mutation, which the
state-passing embedding renders as the caller keeping the unchanged
page), and on success the new page is dirty, keeps its length, has
used advanced by len(toAdd), holds toAdd at offset used, and agrees with
the old page on every other byte outside the 4-byte used header. -/
theorem c4_append_spec (p : PageData) (toAdd : List Nat)
    (hlen : p.data.length = 8192) (hused : 4 ≤ PageImpl.GetUsed p) :
    (PageImpl.Append p toAdd = .overflow ↔ 8192 < PageImpl.GetUsed p + toAdd.length) ∧
    (∀ p', PageImpl.Append p toAdd = .ok p' →
      p'.dirty = true ∧
      p'.data.length = 8192 ∧
      PageImpl.GetUsed p' = PageImpl.GetUsed p + toAdd.length ∧
      readBytes p'.data (PageImpl.GetUsed p) toAdd.length = toAdd ∧
      ∀ i, 4 ≤ i → (i < PageImpl.GetUsed p ∨ PageImpl.GetUsed p + toAdd.length ≤ i) →
        byteAt p'.data i = byteAt p.data i) := by
  unfold PageImpl.Append
  by_cases hov : 8192 < PageImpl.GetUsed p + toAdd.length
  · rw [if_pos hov]
    refine ⟨⟨fun _ => hov, fun _ => rfl⟩, fun p' hp' => by cases hp'⟩
  · rw [if_neg hov]
    have hfit : PageImpl.GetUsed p + toAdd.length ≤ 8192 := by omega
    have h1 : PageImpl.GetUsed p + toAdd.length ≤ p.data.length := by omega
    have hd1len : (writeBytes p.data (PageImpl.GetUsed p) toAdd).length = 8192 := by
      rw [length_writeBytes h1, hlen]
    have hb4 : (le32Bytes (PageImpl.GetUsed p + toAdd.length)).length = 4 := rfl
    have h2 : 0 + (le32Bytes (PageImpl.GetUsed p + toAdd.length)).length ≤
        (writeBytes p.data (PageImpl.GetUsed p) toAdd).length := by
      rw [hd1len, hb4]
      omega
    constructor
    · exact ⟨fun h => by exact absurd h (by simp), fun h => absurd h hov⟩
    · intro p' hp'
      cases hp'
      refine ⟨rfl, ?_, ?_, ?_, ?_⟩
      · rw [length_writeBytes h2, hd1len]
      · show leRead32At _ 0 = _
        rw [leRead32At_writeBytes_le32 _ (by omega)]
        omega
      · rw [readBytes_writeBytes_disjoint h2 (by right; simpa using hused)]
        exact readBytes_writeBytes_self h1
      · intro i hi4 hiout
        rw [byteAt_writeBytes_hi h2 (by simpa using hi4), byteAt_writeBytes h1,
          if_neg (by omega)]

/-- Claim C4 witness: a fresh data page (used = 8) accepts a one-byte
append with the properties of c4_append_spec, at concrete inputs. -/
theorem c4_append_spec_witness :
    (DmImpl.newDataPage.data.length = 8192 ∧ 4 ≤ PageImpl.GetUsed DmImpl.newDataPage) ∧
    ((PageImpl.Append DmImpl.newDataPage [7] = .overflow ↔
        8192 < PageImpl.GetUsed DmImpl.newDataPage + [7].length) ∧
      (∀ p', PageImpl.Append DmImpl.newDataPage [7] = .ok p' →
        p'.dirty = true ∧
        p'.data.length = 8192 ∧
        PageImpl.GetUsed p' = PageImpl.GetUsed DmImpl.newDataPage + [7].length ∧
        readBytes p'.data (PageImpl.GetUsed DmImpl.newDataPage) [7].length = [7] ∧
        ∀ i, 4 ≤ i →
          (i < PageImpl.GetUsed DmImpl.newDataPage ∨
            PageImpl.GetUsed DmImpl.newDataPage + [7].length ≤ i) →
          byteAt p'.data i = byteAt DmImpl.newDataPage.data i)) :=
  ⟨⟨by norm_num [DmImpl.newDataPage], by decide⟩,
    c4_append_spec DmImpl.newDataPage [7] (by norm_num [DmImpl.newDataPage]) (by decide)⟩

/-- Claim C8: on a database-meta page, CheckInitVersion is true exactly
when the 8 bytes at offset 100 equal the 8 bytes at offset 108, and
InitVersion (writing the 8 random bytes rnd at offset 100) followed by
UpdateVersion (copying offset 100 to offset 108) makes CheckInitVersion
true from every initial meta-page state. -/
theorem c8_version_marker (p : PageData) (rnd : List Nat)
    (_hmeta : PageImpl.GetPageType p = DbMetaPage)
    (hlen : p.data.length = 8192) (hrnd : rnd.length = 8) :
    (PageImpl.CheckInitVersion p = true ↔ readBytes p.data 100 8 = readBytes p.data 108 8) ∧
    PageImpl.CheckInitVersion (PageImpl.UpdateVersion (PageImpl.InitVersion p rnd)) = true := by
  constructor
  · unfold PageImpl.CheckInitVersion
    exact beq_iff_eq
  · unfold PageImpl.CheckInitVersion PageImpl.UpdateVersion PageImpl.InitVersion
    have h1 : 100 + rnd.length ≤ p.data.length := by omega
    have hd1len : (writeBytes p.data 100 rnd).length = 8192 := by rw [length_writeBytes h1, hlen]
    have hsrc2 : (readBytes (writeBytes p.data 100 rnd) 100 8).length = 8 := length_readBytes _ _ _
    have h2 : 108 + (readBytes (writeBytes p.data 100 rnd) 100 8).length ≤
        (writeBytes p.data 100 rnd).length := by
      rw [hsrc2, hd1len]
      omega
    have hlive : readBytes (writeBytes (writeBytes p.data 100 rnd) 108
          (readBytes (writeBytes p.data 100 rnd) 100 8)) 100 8 =
        readBytes (writeBytes p.data 100 rnd) 100 8 :=
      readBytes_writeBytes_disjoint h2 (by omega)
    have hshadow : readBytes (writeBytes (writeBytes p.data 100 rnd) 108
          (readBytes (writeBytes p.data 100 rnd) 100 8)) 108 8 =
        readBytes (writeBytes p.data 100 rnd) 100 8 := by
      have := readBytes_writeBytes_self h2
      rwa [hsrc2] at this
    rw [hlive, hshadow]
    exact beq_self_eq_true _

/-- Claim C8 witness: a concrete database-meta page and concrete random
bytes instantiate c8_version_marker. -/
theorem c8_version_marker_witness :
    (PageImpl.GetPageType metaStub = DbMetaPage ∧ metaStub.data.length = 8192) ∧
    ((PageImpl.CheckInitVersion metaStub = true ↔
        readBytes metaStub.data 100 8 = readBytes metaStub.data 108 8) ∧
      PageImpl.CheckInitVersion
        (PageImpl.UpdateVersion (PageImpl.InitVersion metaStub [9, 8, 7, 6, 5, 4, 3, 2])) =
        true) :=
  ⟨⟨by decide, by norm_num [metaStub]⟩,
    c8_version_marker metaStub [9, 8, 7, 6, 5, 4, 3, 2] (by decide)
      (by norm_num [metaStub]) (by decide)⟩

/-- Claim C9: splitting a packed uid recovers the page id and offset for
all 32-bit values, and when the page id has its high bit set the packed
64-bit pattern has its sign bit set (the int64 uid is negative), the
case the claim singles out. -/
theorem c9_uid_roundtrip (p o : Nat) (hp : p < 4294967296) (ho : o < 4294967296) :
    uidTrans (getUid p o) = (p, o) ∧
    (2147483648 ≤ p → 9223372036854775808 ≤ getUid p o) := by
  have hpow32 : (2 : Nat) ^ 32 = 4294967296 := by norm_num
  have hpow64 : (2 : Nat) ^ 64 = 18446744073709551616 := by norm_num
  have hmask : (4294967295 : Nat) = 2 ^ 32 - 1 := by norm_num
  have hlt : p * 4294967296 + o < 18446744073709551616 := by
    have : p * 4294967296 ≤ 4294967295 * 4294967296 := by
      apply Nat.mul_le_mul_right
      omega
    omega
  have hval : getUid p o = p * 4294967296 + o := by
    unfold getUid
    rw [Nat.mod_eq_of_lt (by omega)]
    have := Nat.mul_add_lt_is_or (i := 32) (b := o) (by rw [hpow32]; exact ho) p
    rw [hpow32] at this
    rw [Nat.mul_comm p 4294967296, ← this, Nat.mul_comm 4294967296 p]
  have hoff : (p * 4294967296 + o) &&& 4294967295 = o := by
    rw [hmask, Nat.and_pow_two_sub_one_eq_mod, hpow32]
    omega
  have hdiv : (p * 4294967296 + o) / 4294967296 = p := by omega
  constructor
  · unfold uidTrans sarShift32
    rw [hval, hoff, hdiv]
    by_cases hs : 9223372036854775808 ≤ p * 4294967296 + o
    · rw [if_pos hs, hmask, Nat.and_pow_two_sub_one_eq_mod, hpow32]
      have : (p + 4294967295 * 4294967296) % 4294967296 = p := by omega
      rw [this]
    · rw [if_neg hs, hmask, Nat.and_pow_two_sub_one_eq_mod, hpow32]
      have : (p + 0) % 4294967296 = p := by omega
      rw [this]
  · intro hhi
    rw [hval]
    have : 2147483648 * 4294967296 ≤ p * 4294967296 := by
      apply Nat.mul_le_mul_right
      omega
    omega

/-- Claim C9 witness: a page id above 2^31 (signed-negative uid) and a
concrete offset round-trip through getUid and uidTrans. -/
theorem c9_uid_roundtrip_witness :
    (2147483653 : Nat) < 4294967296 ∧ (123 : Nat) < 4294967296 ∧
    (uidTrans (getUid 2147483653 123) = (2147483653, 123) ∧
      (2147483648 ≤ 2147483653 → 9223372036854775808 ≤ getUid 2147483653 123)) :=
  ⟨by decide, by decide, c9_uid_roundtrip 2147483653 123 (by decide) (by decide)⟩

theorem findGeRemove_perm {need : Int} :
    ∀ {l l' : List PageInfo} {e : PageInfo}, findGeRemove need l = some (e, l') →
      (e :: l').Perm l ∧ need ≤ e.Available := by
  intro l
  induction l with
  | nil => intro l' e h; cases h
  | cons x xs ih =>
    intro l' e h
    unfold findGeRemove at h
    split at h
    next hx =>
      cases h
      exact ⟨List.Perm.refl _, hx⟩
    next hx =>
      split at h
      next e0 rest hrec =>
        cases h
        obtain ⟨hperm, hge⟩ := ih hrec
        exact ⟨(List.Perm.swap x _ rest).trans (hperm.cons x), hge⟩
      next => cases h

theorem flatten_set_perm {α : Type} :
    ∀ (free : List (List α)) (k : Nat) (b b' : List α) (e : α),
      free[k]? = some b → (e :: b').Perm b →
      (e :: (free.set k b').flatten).Perm free.flatten := by
  intro free
  induction free with
  | nil => intro k b b' e hk; cases hk
  | cons a rest ih =>
    intro k b b' e hk hp
    cases k with
    | zero =>
      rw [List.getElem?_cons_zero] at hk
      cases hk
      simp only [List.set_cons_zero, List.flatten_cons]
      exact hp.append_right rest.flatten
    | succ k0 =>
      rw [List.getElem?_cons_succ] at hk
      simp only [List.set_cons_succ, List.flatten_cons]
      have step := ih k0 b b' e hk hp
      exact (List.perm_middle.symm.trans (List.Perm.append_left a step))

theorem scanFrom_found {s : PageCtlState} {need : Int} {e : PageInfo} {s' : PageCtlState} :
    ∀ {steps j : Nat}, PageCtlImpl.scanFrom s need j steps = .found e s' →
      ∃ k b b', j ≤ k ∧ s.free[k]? = some b ∧ findGeRemove need b = some (e, b') ∧
        s' = { s with free := s.free.set k b' } := by
  intro steps
  induction steps with
  | zero => intro j h; cases h
  | succ n ih =>
    intro j h
    unfold PageCtlImpl.scanFrom at h
    split at h
    next hb => cases h
    next b hb =>
      split at h
      next e0 b' hf =>
        cases h
        exact ⟨j, b, b', Nat.le_refl j, hb, hf, rfl⟩
      next hf =>
        obtain ⟨k, bb, bb', hk, h1, h2, h3⟩ := ih h
        exact ⟨k, bb, bb', by omega, h1, h2, h3⟩

theorem one_le_startIdx (need : Int) : 1 ≤ PageCtlImpl.startIdx need := by
  unfold PageCtlImpl.startIdx
  by_cases h : (if need < PageCtlImpl.TinyTHRESHOLD then 0 else need.toNat / 128) ≠ 64
  · rw [if_pos h]
    omega
  · rw [if_neg h]
    have h64 : (if need < PageCtlImpl.TinyTHRESHOLD then 0 else need.toNat / 128) = 64 := by
      by_contra hc
      exact h hc
    omega

theorem Select_found {s : PageCtlState} {need : Int} {e : PageInfo} {s' : PageCtlState}
    (h : PageCtlImpl.Select s need = .found e s') :
    (∃ tiny', findGeRemove need s.tiny = some (e, tiny') ∧ s' = { s with tiny := tiny' }) ∨
    (∃ k b b', 1 ≤ k ∧ s.free[k]? = some b ∧ findGeRemove need b = some (e, b') ∧
      s' = { s with free := s.free.set k b' }) := by
  unfold PageCtlImpl.Select at h
  split at h
  next => cases h
  next h0 =>
    split at h
    next => cases h
    next h8 =>
      split at h
      next e0 tiny' hf =>
        cases h
        by_cases htiny : need < PageCtlImpl.TinyTHRESHOLD
        · rw [if_pos htiny] at hf
          exact Or.inl ⟨tiny', hf, rfl⟩
        · rw [if_neg htiny] at hf
          cases hf
      next hf =>
        obtain ⟨k, b, b', hk, h1, h2, h3⟩ := scanFrom_found h
        have hstart := one_le_startIdx need
        exact Or.inr ⟨k, b, b', by omega, h1, h2, h3⟩

/-- Claim C2: every entry Select returns is removed from the index at the
moment it is returned — the remaining state holds exactly the old entries
minus one occurrence of the returned one, in the tiny-container path and
in the bucket path alike, so a second caller cannot receive the same
entry before it is re-added. -/
theorem c2_select_removes_entry (s : PageCtlState) (need : Int) (e : PageInfo)
    (s' : PageCtlState) (h : PageCtlImpl.Select s need = .found e s') :
    (e :: (s'.tiny ++ s'.free.flatten)).Perm (s.tiny ++ s.free.flatten) := by
  rcases Select_found h with ⟨tiny', hf, hs⟩ | ⟨k, b, b', _, hk, hf, hs⟩
  · subst hs
    have hperm := (findGeRemove_perm hf).1
    show ((e :: tiny') ++ s.free.flatten).Perm (s.tiny ++ s.free.flatten)
    exact hperm.append_right s.free.flatten
  · subst hs
    have hperm := flatten_set_perm s.free k b b' e hk (findGeRemove_perm hf).1
    exact (List.perm_middle.symm.trans (List.Perm.append_left s.tiny hperm))

/-- Claim C2 witness: a concrete tiny-path Select removes the entry it
returns. -/
theorem c2_select_removes_entry_witness :
    PageCtlImpl.Select ⟨List.replicate 64 [], [⟨3, 20⟩]⟩ 10 = .found ⟨3, 20⟩ ctl64 ∧
    ((⟨3, 20⟩ : PageInfo) ::
        (ctl64.tiny ++ ctl64.free.flatten)).Perm
      ((⟨List.replicate 64 [], [⟨3, 20⟩]⟩ : PageCtlState).tiny ++
        (List.replicate 64 [] : List (List PageInfo)).flatten) :=
  ⟨by decide, c2_select_removes_entry ⟨List.replicate 64 [], [⟨3, 20⟩]⟩ 10 ⟨3, 20⟩ ctl64
    (by decide)⟩

/-- Bucket 0 of the free-space index, the bucket the scan of Select never
visits. -/
def bucket0 (s : PageCtlState) : List PageInfo := s.free.getD 0 []

/-- Index entries outside bucket 0: the tiny container and buckets 1 …. -/
def restEntries (s : PageCtlState) : List PageInfo := s.tiny ++ (s.free.drop 1).flatten

/-- Operations the free-space index exposes, for stating temporal facts
about operation sequences. -/
inductive CtlOp where
  | add : Int → Int → CtlOp
  | sel : Int → CtlOp
  deriving DecidableEq, Repr

/-- Effect of one index operation on the index state; a Select that does
not return an entry leaves the state as it was. -/
def applyCtlOp (s : PageCtlState) : CtlOp → PageCtlState
  | .add pid avail => PageCtlImpl.AddPageInfo s pid avail
  | .sel need =>
    match PageCtlImpl.Select s need with
    | .found _ s' => s'
    | _ => s

/-- Effect of a sequence of index operations. -/
def applyCtlOps (s : PageCtlState) (ops : List CtlOp) : PageCtlState :=
  ops.foldl applyCtlOp s

theorem bucket0_set {s : PageCtlState} {k : Nat} {b' : List PageInfo} (hk : 1 ≤ k) :
    bucket0 { s with free := s.free.set k b' } = bucket0 s := by
  unfold bucket0
  simp only [List.getD_eq_getElem?_getD]
  rw [List.getElem?_set_ne (by omega)]

theorem Select_found_bucket0 {s : PageCtlState} {need : Int} {e : PageInfo}
    {s' : PageCtlState} (h : PageCtlImpl.Select s need = .found e s') :
    bucket0 s' = bucket0 s ∧ (e :: restEntries s').Perm (restEntries s) := by
  rcases Select_found h with ⟨tiny', hf, hs⟩ | ⟨k, b, b', hk, hkb, hf, hs⟩
  · subst hs
    refine ⟨rfl, ?_⟩
    show ((e :: tiny') ++ (s.free.drop 1).flatten).Perm _
    exact (findGeRemove_perm hf).1.append_right _
  · subst hs
    refine ⟨bucket0_set hk, ?_⟩
    obtain ⟨k0, rfl⟩ : ∃ k0, k = k0 + 1 := ⟨k - 1, by omega⟩
    unfold restEntries
    rw [List.drop_set, if_neg (by omega)]
    have hk0 : (s.free.drop 1)[k0]? = some b := by
      rw [List.getElem?_drop, Nat.add_comm 1 k0]
      exact hkb
    have hstep := flatten_set_perm (s.free.drop 1) k0 b b' e hk0 (findGeRemove_perm hf).1
    have hidx : k0 + 1 - 1 = k0 := by omega
    rw [hidx]
    exact (List.perm_middle.symm.trans (List.Perm.append_left s.tiny hstep))

theorem addPageInfo_bucket0 {s : PageCtlState} {pid avail : Int}
    (hlen : 0 < s.free.length) (h32 : 32 ≤ avail) (h128 : avail < 128) :
    bucket0 (PageCtlImpl.AddPageInfo s pid avail) = bucket0 s ++ [⟨pid, avail⟩] := by
  have hom : PageCtlImpl.OMITTED = 8 := rfl
  have hts : PageCtlImpl.TinyTHRESHOLD = 32 := rfl
  unfold PageCtlImpl.AddPageInfo
  rw [if_neg (by omega), if_neg (by omega)]
  have hzero : avail.toNat / 128 = 0 := Nat.div_eq_of_lt (by omega)
  rw [hzero]
  unfold bucket0
  simp only [List.getD_eq_getElem?_getD]
  rw [List.getElem?_set_self (by omega)]
  rfl

theorem mem_getD0_set_append {free : List (List PageInfo)} {x e : PageInfo} (i : Nat)
    (hx : x ∈ free.getD 0 []) :
    x ∈ (free.set i (free.getD i [] ++ [e])).getD 0 [] := by
  cases free with
  | nil => exact hx
  | cons f0 rest =>
    cases i with
    | zero =>
      simp only [List.getD_cons_zero, List.set_cons_zero] at hx ⊢
      exact List.mem_append_left _ hx
    | succ i0 =>
      simpa using hx

theorem bucket0_mem_applyCtlOp {x : PageInfo} {s : PageCtlState} (op : CtlOp)
    (hx : x ∈ bucket0 s) : x ∈ bucket0 (applyCtlOp s op) := by
  cases op with
  | add pid avail =>
    show x ∈ bucket0 (PageCtlImpl.AddPageInfo s pid avail)
    unfold PageCtlImpl.AddPageInfo
    split
    · exact hx
    · split
      · exact hx
      · exact mem_getD0_set_append _ hx
  | sel need =>
    show x ∈ bucket0 (match PageCtlImpl.Select s need with | .found _ s' => s' | _ => s)
    cases hsel : PageCtlImpl.Select s need with
    | found e s' =>
      simp only
      rw [(Select_found_bucket0 hsel).1]
      exact hx
    | nothing => exact hx
    | badNeed => exact hx
    | outOfRange j => exact hx

theorem bucket0_mem_applyCtlOps {x : PageInfo} :
    ∀ (ops : List CtlOp) (s : PageCtlState), x ∈ bucket0 s →
      x ∈ bucket0 (applyCtlOps s ops) := by
  intro ops
  induction ops with
  | nil => intro s hx; exact hx
  | cons op rest ih =>
    intro s hx
    exact ih (applyCtlOp s op) (bucket0_mem_applyCtlOp op hx)

/-- Claim C10: an entry added with available in [TinyTHRESHOLD, THRESHOLD)
= [32, 128) lands in bucket 0 (appended at its end); every successful
Select leaves bucket 0 untouched and takes its returned entry from the
tiny container or a bucket of index at least 1; and membership in
bucket 0 survives every sequence of index operations — the free space
recorded there is unreachable through the index forever. -/
theorem c10_bucket0_unreachable :
    (∀ (s : PageCtlState) (pid avail : Int), 0 < s.free.length → 32 ≤ avail →
      avail < 128 →
      bucket0 (PageCtlImpl.AddPageInfo s pid avail) = bucket0 s ++ [⟨pid, avail⟩]) ∧
    (∀ (s : PageCtlState) (need : Int) (e : PageInfo) (s' : PageCtlState),
      PageCtlImpl.Select s need = .found e s' →
      bucket0 s' = bucket0 s ∧ (e :: restEntries s').Perm (restEntries s)) ∧
    (∀ (x : PageInfo) (ops : List CtlOp) (s : PageCtlState),
      x ∈ bucket0 s → x ∈ bucket0 (applyCtlOps s ops)) :=
  ⟨fun _ _ _ h1 h2 h3 => addPageInfo_bucket0 h1 h2 h3,
    fun _ _ _ _ h => Select_found_bucket0 h,
    fun _ ops s hx => bucket0_mem_applyCtlOps ops s hx⟩

/-- Claim C10 witness: a page with 50 free bytes is added to bucket 0 of
the empty index and is still in bucket 0 after further adds and selects,
one of which would fit it. -/
theorem c10_bucket0_unreachable_witness :
    (0 < ctl64.free.length ∧ (32 : Int) ≤ 50 ∧ (50 : Int) < 128 ∧
      bucket0 (PageCtlImpl.AddPageInfo ctl64 7 50) = bucket0 ctl64 ++ [⟨7, 50⟩]) ∧
    (⟨7, 50⟩ : PageInfo) ∈
      bucket0 (applyCtlOps (PageCtlImpl.AddPageInfo ctl64 7 50)
        [.add 3 200, .sel 40, .sel 100]) :=
  ⟨⟨by decide, by decide, by decide,
      c10_bucket0_unreachable.1 ctl64 7 50 (by decide) (by decide) (by decide)⟩,
    c10_bucket0_unreachable.2.2 ⟨7, 50⟩ [.add 3 200, .sel 40, .sel 100]
      (PageCtlImpl.AddPageInfo ctl64 7 50) (by decide)⟩

/-- Claim C3 (refuted by the code): on the 64-bucket index the scan of
Select runs intervalNum up to and including INTERVALS = 64 and indexes
free[64], one past the end of the bucket array, whenever no entry is
found before that — instead of returning none — and for need = 128 the
scan starts at bucket 128/128 + 1 = 2, one past ceil(128/128) = 1,
missing a fitting page recorded in bucket 1 (which need = 100, whose
ceil bucket is also 1, does find). -/
theorem c3_select_scan_oob :
    PageCtlImpl.Select ctl64 32 = .outOfRange 64 ∧
    PageCtlImpl.Select ctl64 8192 = .outOfRange 64 ∧
    PageCtlImpl.Select ⟨(List.replicate 64 []).set 1 [⟨5, 200⟩], []⟩ 128 =
      .outOfRange 64 ∧
    PageCtlImpl.Select ⟨(List.replicate 64 []).set 1 [⟨5, 200⟩], []⟩ 100 =
      .found ⟨5, 200⟩ ctl64 :=
  ⟨by decide, by decide, by decide, by decide⟩

/-- Page 2 after the in-place update of its record to payload 67. -/
def pageAfter67 : PageData :=
  { livePage2 with data := writeBytes livePage2.data 8 (WrapDataItemRaw [67]) }

/-- Store after the in-place update of the record at (2, 8). -/
def storeAfter67 : DmState := ⟨[metaStub, pageAfter67], ctl64⟩

/-- Claim C5 (grow path refuted by the code): liveStore holds a live
10-byte record at uid (2, 8).  An update to an equal-or-smaller frame
rewrites in place, returns the same uid, and that uid reads back the new
payload.  An update to a larger payload must tombstone and re-insert, but
the Select call inside Insert indexes free[64], out of range of the bucket array, and
the operation aborts instead of returning a fresh uid. -/
theorem c5_update_grow_aborts :
    DmImpl.Read liveStore (getUid 2 8) = some [1, 0, 0, 0, 0, 0, 0, 0, 1, 65] ∧
    (DmImpl.Update liveStore (getUid 2 8) [67] = .ok (getUid 2 8) storeAfter67 ∧
      DmImpl.Read storeAfter67 (getUid 2 8) = some [1, 0, 0, 0, 0, 0, 0, 0, 1, 67]) ∧
    DmImpl.Update liveStore (getUid 2 8) [66, 66] = .selectOutOfRange 64 :=
  ⟨by decide, ⟨rfl, by decide⟩, by decide⟩

/-- Page 2 with the record at offset 8 tombstoned (validity byte 0). -/
def deadPage2 : PageData := { livePage2 with data := writeBytes livePage2.data 8 [0] }

/-- Store whose only record is tombstoned. -/
def deadStore : DmState := ⟨[metaStub, deadPage2], ctl64⟩

/-- Claim C6 (absent-record path refuted by the code): deleting the live
record at (2, 8) only clears its validity byte — used, the frame bytes
behind the flag, and the free-space index are unchanged — but when Read
yields none (the record is already tombstoned) Delete still calls
Release on the nil item and crashes instead of returning normally. -/
theorem c6_delete_nil_deref :
    (DmImpl.Delete liveStore (getUid 2 8) = .ok deadStore ∧
      PageImpl.GetUsed deadPage2 = PageImpl.GetUsed livePage2 ∧
      deadStore.ctl = liveStore.ctl ∧
      readBytes deadPage2.data 9 9 = readBytes livePage2.data 9 9) ∧
    (DmImpl.Read deadStore (getUid 2 8) = none ∧
      DmImpl.Delete deadStore (getUid 2 8) = .nilDeref) :=
  ⟨⟨rfl, by decide, by decide, by decide⟩, by decide, by decide⟩

theorem wrap_length (data : List Nat) : (WrapDataItemRaw data).length = 9 + data.length := by
  unfold WrapDataItemRaw be64Bytes
  simp only [List.length_cons, List.length_append, List.length_cons, List.length_nil]
  omega

theorem insertInto_ne_tooLarge (s : DmState) (pid : Nat) (raw : List Nat) :
    DmImpl.insertInto s pid raw ≠ .tooLarge := by
  unfold DmImpl.insertInto
  split
  · intro h
    cases h
  next pg hpg =>
    split
    · intro h
      cases h
    · intro h
      cases h

/-- Store holding a single fresh data page (8184 free bytes) that is
registered in the free-space index, in bucket 8184 / 128 = 63. -/
def freshPageStore : DmState :=
  ⟨[metaStub, DmImpl.newDataPage], ⟨(List.replicate 64 []).set 63 [⟨2, 8184⟩], []⟩⟩

/-- Claim C7 (boundary refuted by the code): Insert rejects with the
record-too-large panic exactly when the framed length 9 + len(data)
exceeds MaxFreeSize = 8184, and one byte over the boundary is rejected;
but the maximal payload of 8184 - 9 = 8175 bytes is not accepted even
with a fresh, fully empty data page registered in the index: Select
starts its scan at bucket 8184/128 + 1 = 64, out of range of the
64-bucket array, and the insert aborts. -/
theorem c7_record_too_large_boundary :
    (∀ (s : DmState) (data : List Nat),
      DmImpl.Insert s data = .tooLarge ↔ 8184 < 9 + data.length) ∧
    DmImpl.Insert freshPageStore (List.replicate 8175 0) = .selectOutOfRange 64 ∧
    DmImpl.Insert freshPageStore (List.replicate 8176 0) = .tooLarge := by
  have hiff : ∀ (s : DmState) (data : List Nat),
      DmImpl.Insert s data = .tooLarge ↔ 8184 < 9 + data.length := by
    intro s data
    have hwl := wrap_length data
    unfold DmImpl.Insert
    by_cases h : 8184 < (WrapDataItemRaw data).length
    · rw [if_pos h]
      exact ⟨fun _ => by omega, fun _ => rfl⟩
    · rw [if_neg h]
      constructor
      · intro htl
        exfalso
        split at htl
        · cases htl
        · cases htl
        · exact insertInto_ne_tooLarge _ _ _ htl
        · exact insertInto_ne_tooLarge _ _ _ htl
      · intro hlen
        exact ((h (by omega)).elim)
  refine ⟨hiff, ?_, ?_⟩
  · have hwl : (WrapDataItemRaw (List.replicate 8175 0)).length = 8184 := by
      rw [wrap_length, List.length_replicate]
    unfold DmImpl.Insert
    rw [hwl, if_neg (by omega)]
    have hsel : PageCtlImpl.Select freshPageStore.ctl (Int.ofNat 8184) = .outOfRange 64 := by
      decide
    rw [hsel]
  · have hwl : (WrapDataItemRaw (List.replicate 8176 0)).length = 8185 := by
      rw [wrap_length, List.length_replicate]
    unfold DmImpl.Insert
    rw [hwl, if_pos (by omega)]
